import Mathlib

/-!
Shallow embedding of the context-retrieval core of the personal-chatbot
backend (`chatbot.py`, with the knowledge-base collaborator boundary from
`knowledge_base.py`).  Python strings are Lean `String`s, Python floats are
`ℚ`, Python lists are Lean `List`s, a Python call that may raise is modelled
as an `Option`-valued collaborator function (`none` = the call raised).
Python's stable `list.sort(key=…)` is modelled by `List.insertionSort` with
the corresponding non-strict key relation, which is stable in the same
sense (ties keep insertion order).
-/

namespace Chatbot

/-- Python `s.lower()` (ASCII case folding, as used by the source). -/
def lowerStr (s : String) : String := String.mk (s.data.map Char.toLower)

/-- Python `needle in hay` substring containment on strings. -/
def pyIn (needle hay : String) : Bool :=
  (List.range (hay.data.length + 1)).any fun i => needle.data.isPrefixOf (hay.data.drop i)

/-- Helper for `pySplit`: splits on whitespace, dropping empty pieces
(`acc` holds the current word reversed). -/
def splitWordsAux : List Char → List Char → List String
  | [], acc => if acc.isEmpty then [] else [String.mk acc.reverse]
  | c :: cs, acc =>
    if c.isWhitespace then
      if acc.isEmpty then splitWordsAux cs []
      else String.mk acc.reverse :: splitWordsAux cs []
    else splitWordsAux cs (c :: acc)

/-- Python `s.split()`: split on whitespace runs, no empty words. -/
def pySplit (s : String) : List String := splitWordsAux s.data []

/-- Helper for `splitCommaSpace` (`acc` holds the current piece reversed). -/
def splitCommaSpaceAux : List Char → List Char → List String
  | [], acc => [String.mk acc.reverse]
  | ',' :: ' ' :: cs, acc => String.mk acc.reverse :: splitCommaSpaceAux cs []
  | c :: cs, acc => splitCommaSpaceAux cs (c :: acc)

/-- Python `s.split(', ')`: split on the exact two-character separator. -/
def splitCommaSpace (s : String) : List String := splitCommaSpaceAux s.data []

/-- The `timeline` nested mapping of a document's metadata
(`{start, end, duration}`); `none` models an absent or non-dict value
(the source guards with `isinstance(timeline, dict)`). -/
structure TimelineInfo where
  start : String := ""
  endDate : String := ""
  duration : String := ""
  deriving DecidableEq, Repr

/-- The `temporal_context` nested mapping used by `_search_in_specific_document`;
`none` models an absent/empty value (the source guards with `if temporal_context:`). -/
structure TemporalContext where
  current : Bool := false
  time_period : String := ""
  experience_type : String := ""
  status : String := ""
  deriving DecidableEq, Repr

/-- The metadata keys the retrieval core reads, each with the default the
source supplies at its `metadata.get(…)` call sites (strings default to `""`,
scores to `0`). -/
structure Metadata where
  filename : String := ""
  document_type : String := ""
  organization : String := ""
  organizations : String := ""
  role : String := ""
  semantic_tags : String := ""
  skill_domains : String := ""
  technologies : String := ""
  locations : String := ""
  relevance_keywords : String := ""
  experience_type : String := ""
  timeline : Option TimelineInfo := none
  temporal_context : Option TemporalContext := none
  complexity_score : ℚ := 0
  impact_score : ℚ := 0
  deriving DecidableEq, Repr

/-- A stored document: `{content, metadata}` as returned by
`KnowledgeBase.get_all_documents`. -/
structure Doc where
  content : String := ""
  metadata : Metadata := {}
  deriving DecidableEq, Repr

/-- A result record flowing through the retrieval pipeline.  The Python dicts
are heterogeneous: enriched-stage results carry both `score` and `distance`,
document-routing results carry only `distance`, raw documents carry neither —
hence the `Option` fields model the presence of the dict keys. -/
structure ScoredResult where
  content : String := ""
  metadata : Metadata := {}
  distance : Option ℚ := none
  score : Option ℚ := none
  deriving DecidableEq, Repr

/-- A raw document viewed as a pipeline record (no `score`/`distance` keys). -/
def Doc.toRes (d : Doc) : ScoredResult :=
  { content := d.content, metadata := d.metadata }

/-- The lowercased query, `query.lower()` in the source. -/
def queryLower (query : String) : String := lowerStr query

/-- The query's word list, `query_lower.split()` in the source. -/
def queryWords (query : String) : List String := pySplit (lowerStr query)

/-- The course-query keyword list of `get_relevant_context` (chatbot.py line 56)
and `_search_with_enriched_metadata` (line 143). -/
def courseWords : List String :=
  ["course", "class", "syllabus", "assignment", "project", "academic", "student"]

/-- `query_is_course_related` (chatbot.py line 143): the lowercased query
contains one of the seven course keywords as a substring. -/
def queryIsCourseRelated (query : String) : Bool :=
  courseWords.any fun w => pyIn w (lowerStr query)

/-- The repeated scoring loop over a comma-joined free-text metadata list
(chatbot.py lines 174-193 and 227-239): for each `', '`-separated entry whose
lowercase form contains some query word, the field's fixed weight `w` is added.
The guard skips an empty or `"none"` field. -/
def listFieldScore (query_words : List String) (field : String) (w : ℚ) : ℚ :=
  if field ≠ "" ∧ field ≠ "none" then
    ((splitCommaSpace field).map fun entry =>
      if query_words.any (fun qw => pyIn qw (lowerStr entry)) then w else 0).sum
  else 0

/-- Document-type block of the scorer (chatbot.py lines 156-172), guarded by a
non-empty `document_type`. -/
def typeScore (query : String) (doc : Doc) : ℚ :=
  if doc.metadata.document_type ≠ "" then
    (if (queryWords query).any (fun w => pyIn w (lowerStr doc.metadata.document_type)) then 5 else 0)
    + (if pyIn "research" (lowerStr query) && (doc.metadata.document_type == "research") then 4 else 0)
    + (if pyIn "current" (lowerStr query) && (doc.metadata.experience_type == "current") then 3 else 0)
    + (if pyIn "sam2" (lowerStr query) && (doc.metadata.document_type == "research") then 6 else 0)
    + (if queryIsCourseRelated query && (doc.metadata.document_type == "academic") then 12 else 0)
  else 0

/-- Plural `organizations` block (chatbot.py lines 196-204): per entry, +4.0 on
query-word overlap and an extra +6.0 for an IISc query when the entry names IISc. -/
def orgsListScore (query : String) (doc : Doc) : ℚ :=
  if doc.metadata.organizations ≠ "" ∧ doc.metadata.organizations ≠ "none" then
    ((splitCommaSpace doc.metadata.organizations).map fun org =>
      (if (queryWords query).any (fun qw => pyIn qw (lowerStr org)) then (4 : ℚ) else 0)
      + (if (pyIn "iisc" (lowerStr query) || pyIn "indian institute" (lowerStr query))
            && pyIn "iisc" (lowerStr org) then (6 : ℚ) else 0)).sum
  else 0

/-- Singular `organization` block (chatbot.py lines 206-216): +6.0 per named
entity (ABB, Netradyne, IISc, DRCL) present in both query and field. -/
def orgFieldScore (query : String) (doc : Doc) : ℚ :=
  if doc.metadata.organization ≠ "" then
    (if pyIn "abb" (lowerStr query) && pyIn "abb" (lowerStr doc.metadata.organization)
     then 6 else 0)
    + (if pyIn "netradyne" (lowerStr query)
          && pyIn "netradyne" (lowerStr doc.metadata.organization) then 6 else 0)
    + (if (pyIn "iisc" (lowerStr query) || pyIn "indian institute" (lowerStr query))
          && pyIn "iisc" (lowerStr doc.metadata.organization) then 6 else 0)
    + (if pyIn "drcl" (lowerStr query) && pyIn "drcl" (lowerStr doc.metadata.organization)
       then 6 else 0)
  else 0

/-- Content-based organization fallback (chatbot.py lines 218-225): +6.0 for
Netradyne, +4.0 for ABB, +5.0 for IISc and for DRCL when the entity is named in
the query and appears in the lowercased content. -/
def contentOrgScore (query : String) (doc : Doc) : ℚ :=
  (if pyIn "netradyne" (lowerStr query) && pyIn "netradyne" (lowerStr doc.content)
   then 6 else 0)
  + (if pyIn "abb" (lowerStr query) && pyIn "abb" (lowerStr doc.content) then 4 else 0)
  + (if (pyIn "iisc" (lowerStr query) || pyIn "indian institute" (lowerStr query))
        && (pyIn "iisc" (lowerStr doc.content)
            || pyIn "indian institute of science" (lowerStr doc.content)) then 5 else 0)
  + (if pyIn "drcl" (lowerStr query) && pyIn "drcl" (lowerStr doc.content) then 5 else 0)

/-- Experience-type block (chatbot.py lines 242-246).  The `elif` condition
keeps Python's operator precedence: `'past' in q or ('previous' in q and
experience_type == 'completed')`. -/
def expTypeScore (query : String) (doc : Doc) : ℚ :=
  if pyIn "current" (lowerStr query) && (doc.metadata.experience_type == "current") then 3/2
  else if pyIn "past" (lowerStr query)
      || (pyIn "previous" (lowerStr query)
          && (doc.metadata.experience_type == "completed")) then 3/2
  else 0

/-- Timeline block (chatbot.py lines 249-265), guarded by a dict-valued
`timeline`. -/
def timelineScore (query : String) (doc : Doc) : ℚ :=
  match doc.metadata.timeline with
  | none => 0
  | some tl =>
    (if pyIn "current" (lowerStr query) then
       (if pyIn "2024" tl.start || pyIn "2025" tl.start then 3
        else if pyIn "2023" tl.start then 3/2 else 0)
     else 0)
    + (if ["past", "previous", "completed", "finished"].any
          (fun w => pyIn w (lowerStr query)) then
         (if pyIn "2023" tl.endDate || pyIn "2022" tl.endDate then 2 else 0)
       else 0)

/-- Role block (chatbot.py lines 268-282), guarded by a role that is neither
empty nor `"N/A"`. -/
def roleScore (query : String) (doc : Doc) : ℚ :=
  if doc.metadata.role ≠ "" ∧ doc.metadata.role ≠ "N/A" then
    (if pyIn "intern" (lowerStr query) && pyIn "intern" (lowerStr doc.metadata.role)
     then 4 else 0)
    + (if pyIn "research" (lowerStr query)
          && ["research", "researcher", "contributor"].any
              (fun w => pyIn w (lowerStr doc.metadata.role))
       then 3 else 0)
    + (if pyIn "current" (lowerStr query) && pyIn "researcher" (lowerStr doc.metadata.role)
       then 2 else 0)
  else 0

/-- Second singular-organization block (chatbot.py lines 285-303), guarded by an
organization that is neither empty nor `"N/A"`: +5.0 for IISc, +4.0 for ABB,
Netradyne and DRCL. -/
def orgTemporalScore (query : String) (doc : Doc) : ℚ :=
  if doc.metadata.organization ≠ "" ∧ doc.metadata.organization ≠ "N/A" then
    (if pyIn "iisc" (lowerStr query) && pyIn "iisc" (lowerStr doc.metadata.organization)
     then 5 else 0)
    + (if pyIn "abb" (lowerStr query) && pyIn "abb" (lowerStr doc.metadata.organization)
       then 4 else 0)
    + (if pyIn "netradyne" (lowerStr query)
          && pyIn "netradyne" (lowerStr doc.metadata.organization) then 4 else 0)
    + (if pyIn "drcl" (lowerStr query) && pyIn "drcl" (lowerStr doc.metadata.organization)
       then 4 else 0)
  else 0

/-- Complexity/impact blend (chatbot.py lines 306-308):
`(complexity_score + impact_score) * 0.2`. -/
def blendScore (doc : Doc) : ℚ :=
  (doc.metadata.complexity_score + doc.metadata.impact_score) * (1/5)

/-- Content-word fallback (chatbot.py lines 311-312): 0.5 per query word
literally present in the lowercased content. -/
def contentWordScore (query : String) (doc : Doc) : ℚ :=
  (((queryWords query).filter fun w => pyIn w (lowerStr doc.content)).length : ℚ) * (1/2)

/-- Special single-topic boosts (chatbot.py lines 315-324): SAM2 +8.0, current
experience +2.0, course query with literal "course" in content +3.0. -/
def specialBoosts (query : String) (doc : Doc) : ℚ :=
  (if pyIn "sam2" (lowerStr query) && pyIn "sam2" (lowerStr doc.content) then 8 else 0)
  + (if pyIn "current" (lowerStr query) && (doc.metadata.experience_type == "current")
     then 2 else 0)
  + (if queryIsCourseRelated query && pyIn "course" (lowerStr doc.content) then 3 else 0)

/-- The full metadata relevance score of one document against a query: the sum
of all `score +=` blocks of `_search_with_enriched_metadata` (chatbot.py
lines 149-324), in source order. -/
def enrichedScore (query : String) (doc : Doc) : ℚ :=
  typeScore query doc
  + listFieldScore (queryWords query) doc.metadata.semantic_tags (5/2)
  + listFieldScore (queryWords query) doc.metadata.skill_domains 2
  + listFieldScore (queryWords query) doc.metadata.technologies (3/2)
  + orgsListScore query doc
  + orgFieldScore query doc
  + contentOrgScore query doc
  + listFieldScore (queryWords query) doc.metadata.locations 2
  + listFieldScore (queryWords query) doc.metadata.relevance_keywords 1
  + expTypeScore query doc
  + timelineScore query doc
  + roleScore query doc
  + orgTemporalScore query doc
  + blendScore doc
  + contentWordScore query doc
  + specialBoosts query doc

/-- The external vector store behind `KnowledgeBase` (knowledge_base.py): an
opaque nearest-neighbor index.  `vector_search` models the embedding encode
plus `client.search` call; `scroll` models the full enumeration; `none` models
those external calls raising. -/
structure KnowledgeBase where
  vector_search : String → Nat → Option (List ScoredResult)
  scroll : Option (List Doc)

/-- `KnowledgeBase.search` (knowledge_base.py lines 265-332): the whole body,
vector-index call included, sits inside `try/except` returning `[]`, so a
raised backend call degrades to an empty list at this boundary. -/
def KnowledgeBase.search (kb : KnowledgeBase) (query : String) (n_results : Nat) :
    List ScoredResult :=
  (kb.vector_search query n_results).getD []

/-- `KnowledgeBase.get_all_documents` (knowledge_base.py lines 334-378): the
enumerating scroll also sits inside `try/except` returning `[]`. -/
def KnowledgeBase.get_all_documents (kb : KnowledgeBase) : List Doc :=
  kb.scroll.getD []

/-- The sort key of `scored_docs.sort(key=lambda x: x['score'], reverse=True)`
(chatbot.py line 336); every record in that list carries a `score`. -/
def scoreKey (r : ScoredResult) : ℚ := r.score.getD 0

/-- The descending-by-score stable order used at chatbot.py line 336. -/
def scoreDescR (a b : ScoredResult) : Prop := scoreKey b ≤ scoreKey a

instance : DecidableRel scoreDescR := fun a b =>
  inferInstanceAs (Decidable (scoreKey b ≤ scoreKey a))

instance : IsTotal ScoredResult scoreDescR :=
  ⟨fun a b => le_total (scoreKey b) (scoreKey a)⟩

instance : IsTrans ScoredResult scoreDescR :=
  ⟨fun _ _ _ h1 h2 => le_trans h2 h1⟩

/-- The sort key of `relevant_docs.sort(key=lambda x: x['distance'])`
(chatbot.py line 523); every record in that list carries a `distance`. -/
def distKey (r : ScoredResult) : ℚ := r.distance.getD 0

/-- The ascending-by-distance stable order used at chatbot.py line 523. -/
def distAscR (a b : ScoredResult) : Prop := distKey a ≤ distKey b

instance : DecidableRel distAscR := fun a b =>
  inferInstanceAs (Decidable (distKey a ≤ distKey b))

instance : IsTotal ScoredResult distAscR :=
  ⟨fun a b => le_total (distKey a) (distKey b)⟩

instance : IsTrans ScoredResult distAscR :=
  ⟨fun _ _ _ h1 h2 => le_trans h1 h2⟩

/-- `_search_with_enriched_metadata` (chatbot.py lines 131-350): score every
stored document, keep the strictly positive ones in enumeration order with
`distance = 1/(score+1)`, stable-sort descending by score and return the top
`n_results`.  The `try/except` at lines 348-350 is absorbed by
`KnowledgeBase.get_all_documents`, which already returns `[]` when its
backend call raises. -/
def search_with_enriched_metadata (kb : KnowledgeBase) (query : String)
    (n_results : Nat) : List ScoredResult :=
  (List.insertionSort scoreDescR
    ((kb.get_all_documents.filter fun d => 0 < enrichedScore query d).map fun d =>
      { content := d.content, metadata := d.metadata,
        distance := some (1 / (enrichedScore query d + 1)),
        score := some (enrichedScore query d) : ScoredResult })).take n_results

/-- `_is_search_relevant` (chatbot.py lines 407-434): the early-`return True`
loop over results becomes `List.any`. -/
def is_search_relevant (query : String) (results : List ScoredResult) : Bool :=
  let query_lower := lowerStr query
  results.any fun result =>
    let filename := lowerStr result.metadata.filename
    let content := lowerStr result.content
    (pyIn "research" query_lower
      && (pyIn "research tracker" filename || pyIn "iisc" filename
          || pyIn "research" content))
    || (pyIn "internship" query_lower
      && (pyIn "internship" filename || pyIn "abb" filename
          || pyIn "netradyne" content))
    || ((pyIn "ashwa" query_lower || pyIn "racing" query_lower)
          && pyIn "ashwa" filename)
    || decide (2 ≤ ((pySplit query_lower).filter fun w => pyIn w content).length)

/-- The `relevance_score` computed inside `_search_in_specific_document`
(chatbot.py lines 485-513): literal query-word count, the courses-file boosts
and floor (lines 489-496), then the temporal-context boosts (lines 498-513). -/
def docRelevanceScore (document_pattern query : String) (doc : Doc) : Nat :=
  let q_lower := lowerStr query
  let query_words := pySplit q_lower
  let content_lower := lowerStr doc.content
  let s0 := (query_words.filter fun w => pyIn w content_lower).length
  let s1 :=
    if pyIn "courses" (lowerStr document_pattern) then
      let sB :=
        if ["completed", "grade", "csci", "cs231n", "assignment", "project"].any
            (fun x => pyIn x content_lower) then s0 + 3
        else s0
      if sB = 0 then 1 else sB
    else s0
  match doc.metadata.temporal_context with
  | none => s1
  | some tc =>
    let a := if pyIn "current" q_lower && tc.current then s1 + 3
             else if pyIn "current" q_lower && (tc.time_period == "current") then s1 + 2
             else s1
    let b := if pyIn "research" q_lower && (tc.experience_type == "research") then a + 2
             else a
    if pyIn "internship" q_lower && (tc.experience_type == "internship") then b + 2
    else b

/-- `_search_in_specific_document` (chatbot.py lines 466-529): filter documents
whose filename contains the pattern, keep those with positive relevance with
`distance = 1/(relevance+1)`, stable-sort ascending by distance, return the top
`n_results`; an empty filename filter yields `[]`. -/
def search_in_specific_document (kb : KnowledgeBase) (document_pattern query : String)
    (n_results : Nat) : List ScoredResult :=
  if (kb.get_all_documents.filter fun d =>
      pyIn (lowerStr document_pattern) (lowerStr d.metadata.filename)) ≠ [] then
    (List.insertionSort distAscR
      (((kb.get_all_documents.filter fun d =>
          pyIn (lowerStr document_pattern) (lowerStr d.metadata.filename)).filter
            fun d => 0 < docRelevanceScore document_pattern query d).map
        fun d =>
          { content := d.content, metadata := d.metadata,
            distance := some (1 / ((docRelevanceScore document_pattern query d : ℚ) + 1)),
            score := none : ScoredResult })).take n_results
  else []

/-- `_intelligent_document_routing` (chatbot.py lines 81-129): the ordered
keyword-pattern rules, with the widened-semantic-search and raw-enumeration
fallbacks of lines 122-129. -/
def intelligent_document_routing (kb : KnowledgeBase) (query : String)
    (n_results : Nat) : List ScoredResult :=
  if ["research", "paper", "study", "investigation"].any
      (fun w => pyIn w (lowerStr query)) then
    if ["iisc", "indian institute", "bangalore"].any
        (fun w => pyIn w (lowerStr query)) then
      search_in_specific_document kb "IISC" query n_results
    else if ["tracker", "current", "ongoing", "sam2"].any
        (fun w => pyIn w (lowerStr query)) then
      search_in_specific_document kb "Research Tracker" query n_results
    else if search_in_specific_document kb "IISC" query n_results = [] then
      search_in_specific_document kb "Research Tracker" query n_results
    else search_in_specific_document kb "IISC" query n_results
  else if ["internship", "work experience", "job", "employment"].any
      (fun w => pyIn w (lowerStr query)) then
    if pyIn "netradyne" (lowerStr query) then
      search_in_specific_document kb "Internship Report" query n_results
    else if pyIn "abb" (lowerStr query) then
      search_in_specific_document kb "ABB internship" query n_results
    else if search_in_specific_document kb "internship" query n_results = [] then
      search_in_specific_document kb "ABB" query n_results
    else search_in_specific_document kb "internship" query n_results
  else if ["course", "class", "syllabus", "assignment", "project"].any
      (fun w => pyIn w (lowerStr query)) then
    search_in_specific_document kb "courses" query (max n_results 15)
  else if ["ashwa", "racing", "business", "planning"].any
      (fun w => pyIn w (lowerStr query)) then
    search_in_specific_document kb "ASHWA" query n_results
  else if kb.search query (n_results * 2) ≠ [] then
    (kb.search query (n_results * 2)).take n_results
  else (kb.get_all_documents.map Doc.toRes).take n_results

/-- The organizations explicitly named by a query, in the fixed vocabulary
order of `_ensure_organization_coverage` (chatbot.py lines 356-365). -/
def requestedOrgs (query : String) : List String :=
  let q := lowerStr query
  (if pyIn "abb" q then ["abb"] else [])
  ++ (if pyIn "netradyne" q then ["netradyne"] else [])
  ++ (if pyIn "iisc" q || pyIn "indian institute" q then ["iisc"] else [])
  ++ (if pyIn "drcl" q then ["drcl"] else [])

/-- An organization token matches a pipeline record when it occurs in the
lowercased singular `organization` field or in the lowercased content
(chatbot.py lines 370-377). -/
def resMatchesOrg (org : String) (r : ScoredResult) : Bool :=
  pyIn org (lowerStr r.metadata.organization) || pyIn org (lowerStr r.content)

/-- The same match on a stored document (chatbot.py lines 388-392). -/
def docMatchesOrg (org : String) (d : Doc) : Bool :=
  pyIn org (lowerStr d.metadata.organization) || pyIn org (lowerStr d.content)

/-- The named organizations not yet represented in the result list
(chatbot.py lines 370-379). -/
def missingOrgs (query : String) (results : List ScoredResult) : List String :=
  (requestedOrgs query).filter fun o => ¬ results.any (resMatchesOrg o)

/-- The coverage candidate's heuristic score `impact_score + complexity_score`
(chatbot.py line 394). -/
def covScore (d : Doc) : ℚ := d.metadata.impact_score + d.metadata.complexity_score

/-- One loop iteration of the best-candidate scan (chatbot.py lines 388-397):
on a match, keep the document when its `covScore` strictly beats the best so
far. -/
def covStep (miss : String) (acc : Option Doc × ℚ) (doc : Doc) : Option Doc × ℚ :=
  if docMatchesOrg miss doc then
    if acc.2 < covScore doc then (some doc, covScore doc) else acc
  else acc

/-- The best-candidate scan for one missing organization (chatbot.py lines
386-397): fold over all documents keeping the first strict maximizer of
`covScore` among matches, starting from `best = None, best_score = -1.0`. -/
def coverageScan (all_docs : List Doc) (miss : String) : Option Doc × ℚ :=
  all_docs.foldl (covStep miss) (none, -1)

/-- One iteration of the append loop (chatbot.py lines 398-401): append the
found best candidate if the list is still below `n_results`. -/
def covAppendStep (all_docs : List Doc) (n_results : Nat)
    (rs : List ScoredResult) (miss : String) : List ScoredResult :=
  match (coverageScan all_docs miss).1 with
  | some best => if rs.length < n_results then rs ++ [best.toRes] else rs
  | none => rs

/-- The append loop of `_ensure_organization_coverage` (chatbot.py lines
385-401): one pass over the missing organizations, appending each found best
candidate while the list is still below `n_results`. -/
def coverageAppend (all_docs : List Doc) (n_results : Nat)
    (missing : List String) (results : List ScoredResult) : List ScoredResult :=
  missing.foldl (covAppendStep all_docs n_results) results

/-- `_ensure_organization_coverage` (chatbot.py lines 352-405): returns the
input unchanged when no organization is named, when none is missing, or when
the list already reached `n_results`; otherwise appends a best match per
missing organization and truncates to `n_results`.  The only raising call in
its `try` block, `get_all_documents`, already degrades to `[]` inside
`KnowledgeBase.get_all_documents`. -/
def ensure_organization_coverage (kb : KnowledgeBase) (query : String)
    (results : List ScoredResult) (n_results : Nat) : List ScoredResult :=
  if requestedOrgs query = [] then results
  else if missingOrgs query results = [] ∨ n_results ≤ results.length then results
  else
    (coverageAppend kb.get_all_documents n_results
      (missingOrgs query results) results).take n_results

/-- The query-dependent `n_results` override of `get_relevant_context`
(chatbot.py lines 54-57): course-related queries force at least 15. -/
def effective_n_results (query : String) (n_results : Nat) : Nat :=
  if queryIsCourseRelated query then max n_results 15 else n_results

/-- `get_relevant_context` (chatbot.py lines 51-79): the four-stage pipeline —
enriched-metadata search, semantic search, intelligent routing, coverage
guarantee.  Backend failures are absorbed to `[]` inside the
`KnowledgeBase` methods (knowledge_base.py), so the orchestrator's outer
`try/except` has nothing left to catch in this model; `return results if
results else []` is the identity on lists. -/
def get_relevant_context (kb : KnowledgeBase) (query : String)
    (n_results : Nat) : List ScoredResult :=
  if search_with_enriched_metadata kb query (effective_n_results query n_results) ≠ [] then
    ensure_organization_coverage kb query
      (search_with_enriched_metadata kb query (effective_n_results query n_results))
      (effective_n_results query n_results)
  else if kb.search query (effective_n_results query n_results) = []
      ∨ ¬ is_search_relevant query (kb.search query (effective_n_results query n_results)) then
    ensure_organization_coverage kb query
      (intelligent_document_routing kb query (effective_n_results query n_results))
      (effective_n_results query n_results)
  else
    ensure_organization_coverage kb query
      (kb.search query (effective_n_results query n_results))
      (effective_n_results query n_results)

/-- The invariant that the scan fold preserves: a found candidate matches the
organization, its `covScore` is the recorded best score, and a `none`
candidate still carries the initial `-1` score. -/
def ScanInv (miss : String) (acc : Option Doc × ℚ) : Prop :=
  (∀ b, acc.1 = some b → docMatchesOrg miss b = true ∧ covScore b = acc.2)
  ∧ (acc.1 = none → acc.2 = -1)

/-! ### Concrete fixtures used to test the claims on explicit inputs -/

/-- One academic course chunk, as Scenario D's corpus rows. -/
def academicDoc : Doc := { content := "course", metadata := { document_type := "academic" } }

/-- A corpus of 20 academic documents behind a quiet semantic index. -/
def kbTwentyAcademic : KnowledgeBase :=
  ⟨fun _ _ => some [], some ((List.range 20).map fun _ => academicDoc)⟩

/-- A document whose `semantic_tags` list has two entries overlapping a
two-word query. -/
def tagsDoc : Doc := { content := "", metadata := { semantic_tags := "python, pytorch" } }

/-- A document mentioning ABB only in its raw content, with empty organization
metadata. -/
def abbContentDoc : Doc := { content := "abb" }

/-- A document mentioning Netradyne only in its raw content. -/
def netradyneContentDoc : Doc := { content := "netradyne" }

/-- A two-document corpus: one ABB match, one Netradyne match. -/
def kbAbbNetradyne : KnowledgeBase :=
  ⟨fun _ _ => some [], some [abbContentDoc, netradyneContentDoc]⟩

/-- A document whose `organization` metadata names ABB. -/
def abbOrgDoc : Doc := { content := "", metadata := { organization := "ABB" } }

/-- A single document matching both ABB and Netradyne in its content. -/
def bothOrgsDoc : Doc := { content := "abb netradyne work" }

/-- A one-document corpus where the same document is the best match for two
organizations. -/
def kbBothOrgs : KnowledgeBase := ⟨fun _ _ => some [], some [bothOrgsDoc]⟩

/-- An IISC-named file chunk whose content shares no word with the query but
whose `temporal_context` marks it current. -/
def iiscTemporalDoc : Doc :=
  { content := "xyz",
    metadata := { filename := "IISC_notes", temporal_context := some { current := true } } }

/-- A corpus holding only `iiscTemporalDoc`. -/
def kbIiscTemporal : KnowledgeBase := ⟨fun _ _ => some [], some [iiscTemporalDoc]⟩

/-- A knowledge base whose every backend call raises. -/
def failedKB : KnowledgeBase := ⟨fun _ _ => none, none⟩

/-- A document irrelevant to any query used with it. -/
def helloDoc : Doc := { content := "hello" }

/-- A one-irrelevant-document corpus behind a quiet semantic index. -/
def kbHello : KnowledgeBase := ⟨fun _ _ => some [], some [helloDoc]⟩

/-- The same corpus behind a semantic index whose calls raise. -/
def kbHelloDown : KnowledgeBase := ⟨fun _ _ => none, some [helloDoc]⟩

/-! ### Basic lemmas about the scorer -/

/-- An if-then-else of nonnegative rationals is nonnegative. -/
theorem nnIte {c : Prop} [Decidable c] {a b : ℚ} (ha : 0 ≤ a) (hb : 0 ≤ b) :
    0 ≤ if c then a else b := by
  split
  · exact ha
  · exact hb

/-- Variant of `nnIte` with the condition explicit and a zero else-branch. -/
theorem nnIteC (c : Prop) [Decidable c] {a : ℚ} (ha : 0 ≤ a) :
    0 ≤ if c then a else (0:ℚ) :=
  nnIte ha le_rfl

theorem listFieldScore_nonneg (qws : List String) (field : String) {w : ℚ}
    (hw : 0 ≤ w) : 0 ≤ listFieldScore qws field w := by
  unfold listFieldScore
  refine nnIte ?_ le_rfl
  refine List.sum_nonneg ?_
  intro x hx
  simp only [List.mem_map] at hx
  obtain ⟨e, _, rfl⟩ := hx
  exact nnIte hw le_rfl

theorem typeScore_nonneg (q : String) (d : Doc) : 0 ≤ typeScore q d := by
  unfold typeScore
  refine nnIte ?_ le_rfl
  repeat' refine add_nonneg ?_ ?_
  all_goals refine nnIte (by norm_num) le_rfl

theorem orgsListScore_nonneg (q : String) (d : Doc) : 0 ≤ orgsListScore q d := by
  unfold orgsListScore
  refine nnIte ?_ le_rfl
  refine List.sum_nonneg ?_
  intro x hx
  simp only [List.mem_map] at hx
  obtain ⟨e, _, rfl⟩ := hx
  exact add_nonneg (nnIte (by norm_num) le_rfl) (nnIte (by norm_num) le_rfl)

theorem orgFieldScore_nonneg (q : String) (d : Doc) : 0 ≤ orgFieldScore q d := by
  unfold orgFieldScore
  refine nnIte ?_ le_rfl
  repeat' refine add_nonneg ?_ ?_
  all_goals refine nnIte (by norm_num) le_rfl

theorem contentOrgScore_nonneg (q : String) (d : Doc) : 0 ≤ contentOrgScore q d := by
  unfold contentOrgScore
  repeat' refine add_nonneg ?_ ?_
  all_goals refine nnIte (by norm_num) le_rfl

theorem expTypeScore_nonneg (q : String) (d : Doc) : 0 ≤ expTypeScore q d := by
  unfold expTypeScore
  exact nnIte (by norm_num) (nnIte (by norm_num) le_rfl)

theorem timelineScore_nonneg (q : String) (d : Doc) : 0 ≤ timelineScore q d := by
  unfold timelineScore
  split
  · exact le_rfl
  · refine add_nonneg (nnIte ?_ le_rfl) (nnIte (nnIte (by norm_num) le_rfl) le_rfl)
    exact nnIte (by norm_num) (nnIte (by norm_num) le_rfl)

theorem roleScore_nonneg (q : String) (d : Doc) : 0 ≤ roleScore q d := by
  unfold roleScore
  refine nnIte ?_ le_rfl
  repeat' refine add_nonneg ?_ ?_
  all_goals refine nnIte (by norm_num) le_rfl

theorem orgTemporalScore_nonneg (q : String) (d : Doc) : 0 ≤ orgTemporalScore q d := by
  unfold orgTemporalScore
  refine nnIte ?_ le_rfl
  repeat' refine add_nonneg ?_ ?_
  all_goals refine nnIte (by norm_num) le_rfl

theorem contentWordScore_nonneg (q : String) (d : Doc) : 0 ≤ contentWordScore q d := by
  unfold contentWordScore
  positivity

theorem specialBoosts_nonneg (q : String) (d : Doc) : 0 ≤ specialBoosts q d := by
  unfold specialBoosts
  repeat' refine add_nonneg ?_ ?_
  all_goals refine nnIte (by norm_num) le_rfl

/-- Every block of the scorer except the complexity/impact blend is
nonnegative, so the blend's sign controls a lower bound of the total. -/
theorem orgFieldScore_le_enrichedScore (q : String) (d : Doc)
    (hb : 0 ≤ blendScore d) : orgFieldScore q d ≤ enrichedScore q d := by
  unfold enrichedScore
  have h1 := typeScore_nonneg q d
  have h2 := listFieldScore_nonneg (queryWords q) d.metadata.semantic_tags
    (by norm_num : (0:ℚ) ≤ 5/2)
  have h3 := listFieldScore_nonneg (queryWords q) d.metadata.skill_domains
    (by norm_num : (0:ℚ) ≤ 2)
  have h4 := listFieldScore_nonneg (queryWords q) d.metadata.technologies
    (by norm_num : (0:ℚ) ≤ 3/2)
  have h5 := orgsListScore_nonneg q d
  have h6 := contentOrgScore_nonneg q d
  have h7 := listFieldScore_nonneg (queryWords q) d.metadata.locations
    (by norm_num : (0:ℚ) ≤ 2)
  have h8 := listFieldScore_nonneg (queryWords q) d.metadata.relevance_keywords
    (by norm_num : (0:ℚ) ≤ 1)
  have h9 := expTypeScore_nonneg q d
  have h10 := timelineScore_nonneg q d
  have h11 := roleScore_nonneg q d
  have h12 := orgTemporalScore_nonneg q d
  have h13 := contentWordScore_nonneg q d
  have h14 := specialBoosts_nonneg q d
  linarith

theorem contentOrgScore_le_enrichedScore (q : String) (d : Doc)
    (hb : 0 ≤ blendScore d) : contentOrgScore q d ≤ enrichedScore q d := by
  unfold enrichedScore
  have h1 := typeScore_nonneg q d
  have h2 := listFieldScore_nonneg (queryWords q) d.metadata.semantic_tags
    (by norm_num : (0:ℚ) ≤ 5/2)
  have h3 := listFieldScore_nonneg (queryWords q) d.metadata.skill_domains
    (by norm_num : (0:ℚ) ≤ 2)
  have h4 := listFieldScore_nonneg (queryWords q) d.metadata.technologies
    (by norm_num : (0:ℚ) ≤ 3/2)
  have h5 := orgsListScore_nonneg q d
  have h6 := orgFieldScore_nonneg q d
  have h7 := listFieldScore_nonneg (queryWords q) d.metadata.locations
    (by norm_num : (0:ℚ) ≤ 2)
  have h8 := listFieldScore_nonneg (queryWords q) d.metadata.relevance_keywords
    (by norm_num : (0:ℚ) ≤ 1)
  have h9 := expTypeScore_nonneg q d
  have h10 := timelineScore_nonneg q d
  have h11 := roleScore_nonneg q d
  have h12 := orgTemporalScore_nonneg q d
  have h13 := contentWordScore_nonneg q d
  have h14 := specialBoosts_nonneg q d
  linarith

/-! ### Lemmas about the coverage scan and append loop -/

theorem covStep_inv {miss : String} {acc : Option Doc × ℚ} {doc : Doc}
    (h : ScanInv miss acc) : ScanInv miss (covStep miss acc doc) := by
  unfold covStep
  split
  · split
    · exact ⟨fun b hb => by
        simp only [Option.some.injEq] at hb
        subst hb
        exact ⟨by assumption, rfl⟩, by simp⟩
    · exact h
  · exact h

theorem covStep_some {miss : String} {acc : Option Doc × ℚ} {doc : Doc}
    (h : acc.1 ≠ none) : (covStep miss acc doc).1 ≠ none := by
  unfold covStep
  split
  · split
    · simp
    · exact h
  · exact h

theorem covStep_mem {miss : String} {acc : Option Doc × ℚ} {doc : Doc} {b : Doc}
    (h : (covStep miss acc doc).1 = some b) : acc.1 = some b ∨ b = doc := by
  unfold covStep at h
  split at h
  · split at h
    · simp only [Option.some.injEq] at h
      exact Or.inr h.symm
    · exact Or.inl h
  · exact Or.inl h

theorem covStep_le {miss : String} {acc : Option Doc × ℚ} (doc : Doc) :
    acc.2 ≤ (covStep miss acc doc).2 := by
  unfold covStep
  split
  · split
    next h => exact le_of_lt h
    next h => exact le_rfl
  · exact le_rfl

theorem covStep_match_le {miss : String} {acc : Option Doc × ℚ} {doc : Doc}
    (hm : docMatchesOrg miss doc = true) : covScore doc ≤ (covStep miss acc doc).2 := by
  unfold covStep
  rw [if_pos hm]
  split
  next h => exact le_rfl
  next h => exact le_of_not_lt h

/-- The fold of `covStep` preserves the invariant, never drops a found
candidate, only visits documents of the list, never lowers the best score, and
ends at least as high as every matching document's `covScore`. -/
theorem covFold_spec (miss : String) :
    ∀ (docs : List Doc) (acc : Option Doc × ℚ), ScanInv miss acc →
      ScanInv miss (docs.foldl (covStep miss) acc)
      ∧ (∀ b, (docs.foldl (covStep miss) acc).1 = some b → acc.1 = some b ∨ b ∈ docs)
      ∧ acc.2 ≤ (docs.foldl (covStep miss) acc).2
      ∧ (∀ d ∈ docs, docMatchesOrg miss d = true →
          covScore d ≤ (docs.foldl (covStep miss) acc).2)
      ∧ (acc.1 ≠ none → (docs.foldl (covStep miss) acc).1 ≠ none)
  | [], acc, hacc => by
      refine ⟨hacc, ?_, le_rfl, ?_, ?_⟩
      · intro b hb
        exact Or.inl hb
      · intro d hd
        simp at hd
      · intro h
        exact h
  | doc :: docs, acc, hacc => by
      have hstep : ScanInv miss (covStep miss acc doc) := covStep_inv hacc
      obtain ⟨h1, h2, h3, h4, h5⟩ := covFold_spec miss docs (covStep miss acc doc) hstep
      rw [List.foldl_cons]
      refine ⟨h1, ?_, ?_, ?_, ?_⟩
      · intro b hb
        rcases h2 b hb with h | h
        · rcases covStep_mem h with h' | h'
          · exact Or.inl h'
          · exact Or.inr (by simp [h'])
        · exact Or.inr (List.mem_cons_of_mem _ h)
      · exact le_trans (covStep_le doc) h3
      · intro d hd hm
        rcases List.mem_cons.mp hd with h | h
        · subst h
          exact le_trans (covStep_match_le hm) h3
        · exact h4 d h hm
      · intro h
        exact h5 (covStep_some h)

/-- A matching document with `covScore` above the initial `-1` forces the scan
to find some candidate. -/
theorem coverageScan_found {all_docs : List Doc} {miss : String} {d : Doc}
    (hd : d ∈ all_docs) (hm : docMatchesOrg miss d = true)
    (hc : -1 < covScore d) : (coverageScan all_docs miss).1 ≠ none := by
  intro hnone
  obtain ⟨hinv, _, _, h4, _⟩ :=
    covFold_spec miss all_docs (none, -1) ⟨fun b hb => by simp at hb, fun _ => rfl⟩
  have hle := h4 d hd hm
  have h2 := hinv.2 hnone
  unfold coverageScan at hnone h2
  rw [h2] at hle
  linarith

/-- What a found scan candidate satisfies: it is a stored document, it matches
the organization, and its `covScore` is maximal among all matching documents. -/
theorem coverageScan_spec {all_docs : List Doc} {miss : String} {b : Doc}
    (hb : (coverageScan all_docs miss).1 = some b) :
    b ∈ all_docs ∧ docMatchesOrg miss b = true ∧
      ∀ d ∈ all_docs, docMatchesOrg miss d = true → covScore d ≤ covScore b := by
  obtain ⟨hinv, hmem, _, h4, _⟩ :=
    covFold_spec miss all_docs (none, -1) ⟨fun b hb => by simp at hb, fun _ => rfl⟩
  unfold coverageScan at hb
  obtain ⟨hm, hsc⟩ := hinv.1 b hb
  refine ⟨?_, hm, ?_⟩
  · rcases hmem b hb with h | h
    · simp at h
    · exact h
  · intro d hd hdm
    rw [hsc]
    exact h4 d hd hdm

theorem covAppendStep_shape (all_docs : List Doc) (n : Nat)
    (rs : List ScoredResult) (miss : String) :
    ∃ s, covAppendStep all_docs n rs miss = rs ++ s ∧ s.length ≤ 1 := by
  unfold covAppendStep
  split
  · split
    · exact ⟨[_], rfl, by simp⟩
    · exact ⟨[], by simp, by simp⟩
  · exact ⟨[], by simp, by simp⟩

/-- The append loop only appends: its output extends its input. -/
theorem coverageAppend_append (all_docs : List Doc) (n : Nat) :
    ∀ (missing : List String) (rs : List ScoredResult),
      ∃ t, coverageAppend all_docs n missing rs = rs ++ t
  | [], rs => ⟨[], by simp [coverageAppend]⟩
  | m :: ms, rs => by
      obtain ⟨s, hs, _⟩ := covAppendStep_shape all_docs n rs m
      obtain ⟨t, ht⟩ := coverageAppend_append all_docs n ms (covAppendStep all_docs n rs m)
      refine ⟨s ++ t, ?_⟩
      unfold coverageAppend at ht ⊢
      rw [List.foldl_cons, ht, hs, List.append_assoc]

/-- A document seen as a pipeline record matches an organization exactly when
the document does. -/
theorem resMatchesOrg_toRes (org : String) (d : Doc) :
    resMatchesOrg org d.toRes = docMatchesOrg org d := rfl

/-- If some stored document matches the organization with `covScore` above the
initial `-1`, and the running list still has room for it after the earlier
missing organizations were processed, the append loop puts a matching record
within the first `n` positions. -/
theorem coverageAppend_covers (all_docs : List Doc) (n : Nat) (org : String)
    {d : Doc} (hd : d ∈ all_docs) (hm : docMatchesOrg org d = true)
    (hc : -1 < covScore d) :
    ∀ (pre post : List String) (rs : List ScoredResult),
      rs.length + pre.length < n →
      ∃ r, r ∈ (coverageAppend all_docs n (pre ++ org :: post) rs).take n ∧
        resMatchesOrg org r = true
  | [], post, rs, hlen => by
      have hne := coverageScan_found hd hm hc
      cases hscan : (coverageScan all_docs org).1 with
      | none => exact absurd hscan hne
      | some b =>
        have hlt : rs.length < n := by simpa using hlen
        have hstep : covAppendStep all_docs n rs org = rs ++ [b.toRes] := by
          unfold covAppendStep
          rw [hscan]
          simp [hlt]
        have heq : coverageAppend all_docs n ([] ++ org :: post) rs
            = coverageAppend all_docs n post (rs ++ [b.toRes]) := by
          unfold coverageAppend
          rw [List.nil_append, List.foldl_cons, hstep]
        obtain ⟨t, ht⟩ := coverageAppend_append all_docs n post (rs ++ [b.toRes])
        refine ⟨b.toRes, ?_, ?_⟩
        · rw [heq, ht, List.take_append_eq_append_take,
            List.take_of_length_le (by simpa using hlt)]
          exact List.mem_append_left _ (List.mem_append_right _ (List.mem_singleton.mpr rfl))
        · rw [resMatchesOrg_toRes]
          exact (coverageScan_spec hscan).2.1
  | p :: pre', post, rs, hlen => by
      obtain ⟨s, hs, hslen⟩ := covAppendStep_shape all_docs n rs p
      have hlen' : (covAppendStep all_docs n rs p).length + pre'.length < n := by
        rw [hs, List.length_append]
        simp only [List.length_cons] at hlen
        omega
      have IH := coverageAppend_covers all_docs n org hd hm hc pre' post
        (covAppendStep all_docs n rs p) hlen'
      have heq : coverageAppend all_docs n ((p :: pre') ++ org :: post) rs
          = coverageAppend all_docs n (pre' ++ org :: post)
              (covAppendStep all_docs n rs p) := by
        unfold coverageAppend
        rw [List.cons_append, List.foldl_cons]
      rw [heq]
      exact IH

/-! ### Lemmas about `_ensure_organization_coverage` -/

/-- The coverage stage preserves its input as a prefix: existing results keep
their order and anything new goes to the end. -/
theorem ensure_coverage_extends (kb : KnowledgeBase) (query : String)
    (results : List ScoredResult) (n : Nat) :
    ∃ t, ensure_organization_coverage kb query results n = results ++ t := by
  unfold ensure_organization_coverage
  split
  · exact ⟨[], by simp⟩
  · split
    · exact ⟨[], by simp⟩
    · next h =>
      push_neg at h
      obtain ⟨t, ht⟩ := coverageAppend_append kb.get_all_documents n
        (missingOrgs query results) results
      rw [ht, List.take_append_eq_append_take,
        List.take_of_length_le (le_of_lt h.2)]
      exact ⟨_, rfl⟩

/-- The coverage stage never grows the list beyond `max (input length) n`. -/
theorem ensure_coverage_length (kb : KnowledgeBase) (query : String)
    (results : List ScoredResult) (n : Nat) :
    (ensure_organization_coverage kb query results n).length
      ≤ max results.length n := by
  unfold ensure_organization_coverage
  split
  · exact le_max_left _ _
  · split
    · exact le_max_left _ _
    · exact le_trans (by simp [List.length_take]) (le_max_right _ _)

/-- The coverage guarantee, with the condition the code actually enforces: the
organization is already represented, or the input list plus the earlier
missing organizations still leave room below `n`. -/
theorem ensure_coverage_covers (kb : KnowledgeBase) (query : String)
    (results : List ScoredResult) (n : Nat) (org : String)
    (horg : org ∈ requestedOrgs query)
    (hex : ∃ d ∈ kb.get_all_documents, docMatchesOrg org d = true ∧ -1 < covScore d)
    (hroom : results.any (resMatchesOrg org) = true
      ∨ ∃ pre post, missingOrgs query results = pre ++ org :: post
          ∧ results.length + pre.length < n) :
    ∃ r ∈ ensure_organization_coverage kb query results n,
      resMatchesOrg org r = true := by
  rcases hroom with hpres | ⟨pre, post, hsplit, hlen⟩
  · rcases List.any_eq_true.mp hpres with ⟨r, hr, hrm⟩
    obtain ⟨t, ht⟩ := ensure_coverage_extends kb query results n
    exact ⟨r, ht ▸ List.mem_append_left _ hr, hrm⟩
  · obtain ⟨d, hd, hm, hc⟩ := hex
    have hmiss_ne : missingOrgs query results ≠ [] := by
      rw [hsplit]
      simp
    have hreq_ne : requestedOrgs query ≠ [] := by
      intro h
      rw [h] at horg
      simp at horg
    have hltn : results.length < n := by omega
    have := coverageAppend_covers kb.get_all_documents n org hd hm hc pre post
      results hlen
    obtain ⟨r, hr, hrm⟩ := this
    refine ⟨r, ?_, hrm⟩
    unfold ensure_organization_coverage
    rw [if_neg hreq_ne, if_neg (by push_neg; exact ⟨hmiss_ne, by omega⟩), ← hsplit] at *
    exact hr

/-- If no stored document matches the organization, the scan finds nothing. -/
theorem coverageScan_none {all_docs : List Doc} {miss : String}
    (h : ∀ d ∈ all_docs, docMatchesOrg miss d = false) :
    (coverageScan all_docs miss).1 = none := by
  cases hs : (coverageScan all_docs miss).1 with
  | none => rfl
  | some b =>
    obtain ⟨hb, hm, _⟩ := coverageScan_spec hs
    rw [h b hb] at hm
    exact absurd hm (by simp)

/-- The append loop is the identity when every scan comes back empty. -/
theorem coverageAppend_id (all_docs : List Doc) (n : Nat) :
    ∀ (missing : List String) (rs : List ScoredResult),
      (∀ o ∈ missing, (coverageScan all_docs o).1 = none) →
      coverageAppend all_docs n missing rs = rs
  | [], _, _ => rfl
  | m :: ms, rs, h => by
      have hm := h m (List.mem_cons_self m ms)
      have hstep : covAppendStep all_docs n rs m = rs := by
        unfold covAppendStep
        rw [hm]
      have IH := coverageAppend_id all_docs n ms rs
        (fun o ho => h o (List.mem_cons_of_mem _ ho))
      unfold coverageAppend at IH ⊢
      rw [List.foldl_cons, hstep]
      exact IH

/-- The coverage stage maps an empty result list to an empty result list when
no named organization has a stored match. -/
theorem ensure_coverage_nil (kb : KnowledgeBase) (query : String) (n : Nat)
    (h : ∀ o ∈ requestedOrgs query, ∀ d ∈ kb.get_all_documents,
      docMatchesOrg o d = false) :
    ensure_organization_coverage kb query [] n = [] := by
  unfold ensure_organization_coverage
  split
  · rfl
  · split
    · rfl
    · rw [coverageAppend_id kb.get_all_documents n (missingOrgs query []) []
        (fun o ho => coverageScan_none (h o (List.mem_of_mem_filter ho)))]
      simp

/-! ### Length and emptiness lemmas for the pipeline stages -/

theorem search_with_enriched_metadata_length (kb : KnowledgeBase) (q : String)
    (n : Nat) : (search_with_enriched_metadata kb q n).length ≤ n := by
  unfold search_with_enriched_metadata
  simp [List.length_take]

theorem search_in_specific_document_length (kb : KnowledgeBase) (p q : String)
    (n : Nat) : (search_in_specific_document kb p q n).length ≤ n := by
  unfold search_in_specific_document
  split
  · simp [List.length_take]
  · simp

/-- The routing course branch only fires on course-related queries: its five
keywords are among the seven of `courseWords`. -/
theorem courseRelated_of_routing_branch {q : String}
    (h : (["course", "class", "syllabus", "assignment", "project"].any
      fun w => pyIn w (lowerStr q)) = true) : queryIsCourseRelated q = true := by
  unfold queryIsCourseRelated courseWords
  rcases List.any_eq_true.mp h with ⟨w, hw, hpw⟩
  refine List.any_eq_true.mpr ⟨w, ?_, hpw⟩
  fin_cases hw <;> simp

/-- Every routing branch respects the effective bound `m`, given that the
semantic index honors its limit and that `m` is already at least 15 for
course-related queries (which is what `get_relevant_context` guarantees). -/
theorem intelligent_document_routing_length (kb : KnowledgeBase) (q : String)
    (m : Nat) (hcourse : queryIsCourseRelated q = true → 15 ≤ m) :
    (intelligent_document_routing kb q m).length ≤ m := by
  unfold intelligent_document_routing
  split
  · split
    · exact search_in_specific_document_length kb "IISC" q m
    · split
      · exact search_in_specific_document_length kb "Research Tracker" q m
      · split
        · exact search_in_specific_document_length kb "Research Tracker" q m
        · exact search_in_specific_document_length kb "IISC" q m
  · split
    · split
      · exact search_in_specific_document_length kb "Internship Report" q m
      · split
        · exact search_in_specific_document_length kb "ABB internship" q m
        · split
          · exact search_in_specific_document_length kb "ABB" q m
          · exact search_in_specific_document_length kb "internship" q m
    · split
      · next hbranch =>
        have h15 : 15 ≤ m := hcourse (courseRelated_of_routing_branch hbranch)
        have : max m 15 = m := max_eq_left h15
        rw [this]
        exact search_in_specific_document_length kb "courses" q m
      · split
        · exact search_in_specific_document_length kb "ASHWA" q m
        · split
          · simp [List.length_take]
          · simp [List.length_take]

theorem search_with_enriched_metadata_empty (kb : KnowledgeBase) (q : String)
    (n : Nat) (h : kb.get_all_documents = []) :
    search_with_enriched_metadata kb q n = [] := by
  unfold search_with_enriched_metadata
  rw [h]
  simp

theorem search_in_specific_document_empty (kb : KnowledgeBase) (p q : String)
    (n : Nat) (h : kb.get_all_documents = []) :
    search_in_specific_document kb p q n = [] := by
  unfold search_in_specific_document
  rw [h]
  simp

/-- With an empty enumeration and an empty semantic index, every routing
branch returns an empty list. -/
theorem intelligent_document_routing_empty (kb : KnowledgeBase) (q : String)
    (m : Nat) (hall : kb.get_all_documents = [])
    (hs : ∀ k, kb.search q k = []) :
    intelligent_document_routing kb q m = [] := by
  have hspec : ∀ p k, search_in_specific_document kb p q k = [] :=
    fun p k => search_in_specific_document_empty kb p q k hall
  unfold intelligent_document_routing
  simp [hspec, hs, hall]

/-! ### Membership characterization of the scoring stages -/

/-- Every record of the enriched-metadata stage's output arises from a stored
document with strictly positive `enrichedScore`, with `distance = 1/(score+1)`. -/
theorem mem_search_with_enriched_metadata {kb : KnowledgeBase} {q : String}
    {n : Nat} {r : ScoredResult} (hr : r ∈ search_with_enriched_metadata kb q n) :
    ∃ d ∈ kb.get_all_documents, 0 < enrichedScore q d ∧
      r = { content := d.content, metadata := d.metadata,
            distance := some (1 / (enrichedScore q d + 1)),
            score := some (enrichedScore q d) } := by
  unfold search_with_enriched_metadata at hr
  have hr' := List.take_subset _ _ hr
  rw [List.mem_insertionSort] at hr'
  simp only [List.mem_map, List.mem_filter] at hr'
  obtain ⟨d, ⟨hd, hpos⟩, rfl⟩ := hr'
  exact ⟨d, hd, by simpa using hpos, rfl⟩

/-- The enriched-metadata stage's output is stably sorted descending by score. -/
theorem search_with_enriched_metadata_sorted (kb : KnowledgeBase) (q : String)
    (n : Nat) : List.Sorted scoreDescR (search_with_enriched_metadata kb q n) := by
  unfold search_with_enriched_metadata
  exact List.Pairwise.sublist (List.take_sublist _ _)
    (List.sorted_insertionSort scoreDescR _)

/-- Every record of a document-specific search arises from a stored document
whose filename matches the pattern, with strictly positive relevance and
`distance = 1/(relevance+1)`. -/
theorem mem_search_in_specific_document {kb : KnowledgeBase} {p q : String}
    {n : Nat} {r : ScoredResult} (hr : r ∈ search_in_specific_document kb p q n) :
    ∃ d ∈ kb.get_all_documents,
      pyIn (lowerStr p) (lowerStr d.metadata.filename) = true ∧
      0 < docRelevanceScore p q d ∧
      r = { content := d.content, metadata := d.metadata,
            distance := some (1 / ((docRelevanceScore p q d : ℚ) + 1)),
            score := none } := by
  unfold search_in_specific_document at hr
  split at hr
  · have hr' := List.take_subset _ _ hr
    rw [List.mem_insertionSort] at hr'
    simp only [List.mem_map, List.mem_filter] at hr'
    obtain ⟨d, ⟨⟨hd, hfn⟩, hpos⟩, rfl⟩ := hr'
    exact ⟨d, hd, hfn, by simpa using hpos, rfl⟩
  · simp at hr

/-- A document-specific search's output is stably sorted ascending by distance. -/
theorem search_in_specific_document_sorted (kb : KnowledgeBase) (p q : String)
    (n : Nat) : List.Sorted distAscR (search_in_specific_document kb p q n) := by
  unfold search_in_specific_document
  split
  · exact List.Pairwise.sublist (List.take_sublist _ _)
      (List.sorted_insertionSort distAscR _)
  · exact List.Pairwise.nil

/-! ### The claims -/

/-- C3, counterexample: the scorer awards the `semantic_tags` weight once per
matching entry, not at most once per field.  On the query "python pytorch" and
a document whose only signal is `semantic_tags = "python, pytorch"`, the field
contributes 2.5 twice and the whole metadata score is 5, which the claimed
at-most-once cap of 2.5 forbids. -/
theorem C3_counterexample :
    tagsDoc.metadata.semantic_tags = "python, pytorch"
    ∧ listFieldScore (queryWords "python pytorch") "python, pytorch" (5/2) = 5
    ∧ enrichedScore "python pytorch" tagsDoc = 5
    ∧ ¬ enrichedScore "python pytorch" tagsDoc ≤ 5/2 := by
  with_unfolding_all decide

/-- C3, amended: each free-text metadata list field contributes its fixed
weight once per comma-separated entry that overlaps a query word — the field
total is the weight times the number of matching entries (0 for an empty or
"none" field), not the weight at most once. -/
theorem C3_per_entry_weight (qws : List String) (field : String) (w : ℚ) :
    listFieldScore qws field w =
      if field ≠ "" ∧ field ≠ "none" then
        w * (((splitCommaSpace field).filter fun e =>
          qws.any fun qw => pyIn qw (lowerStr e)).length : ℚ)
      else 0 := by
  unfold listFieldScore
  split
  · generalize splitCommaSpace field = entries
    induction entries with
    | nil => simp
    | cons e es ih =>
      by_cases h : (qws.any fun qw => pyIn qw (lowerStr e)) = true
      · simp only [List.map_cons, List.sum_cons, List.filter_cons, h, if_true,
          List.length_cons, ih]
        push_cast
        ring
      · have h' : (qws.any fun qw => pyIn qw (lowerStr e)) = false :=
          Bool.not_eq_true _ ▸ Bool.of_not_eq_true h
        simp only [List.map_cons, List.sum_cons, List.filter_cons, h', if_false,
          Bool.false_eq_true, ih]
        simp
  · rfl

/-- C7: a query containing any of the seven course keywords forces the
effective result count used by the retrieval stages to at least 15,
whatever the caller requested. -/
theorem C7_course_min_fetch (query : String) (n_results : Nat)
    (h : queryIsCourseRelated query = true) :
    15 ≤ effective_n_results query n_results := by
  unfold effective_n_results
  rw [if_pos h]
  exact le_max_right _ _

theorem C7_witness :
    queryIsCourseRelated "courses taken" = true
    ∧ 15 ≤ effective_n_results "courses taken" 3 :=
  ⟨by with_unfolding_all decide,
   C7_course_min_fetch "courses taken" 3 (by with_unfolding_all decide)⟩

/-- C8, counterexample: when ABB appears only in the raw content and the
organization metadata is empty, the content fallback adds 4.0, not the claimed
6.0; the whole score of such a document on the query "abb" is 4.5 (4.0 plus
the 0.5 content-word fallback), below the 6.0 a +6.0 bonus would force. -/
theorem C8_counterexample :
    abbContentDoc.metadata.organization = ""
    ∧ pyIn "abb" (lowerStr abbContentDoc.content) = true
    ∧ enrichedScore "abb" abbContentDoc = 9/2
    ∧ ¬ 6 ≤ enrichedScore "abb" abbContentDoc := by
  with_unfolding_all decide

/-- C8, amended: when the query names an entity and the singular organization
field contains it, a +6.0 bonus is added (the total score is at least 6 when
the complexity/impact blend is nonnegative); the raw-content fallback instead
guarantees +6.0 for Netradyne but only +4.0 for ABB and +5.0 for IISc and
DRCL. -/
theorem C8_entity_bonuses (query : String) (doc : Doc)
    (hb : 0 ≤ doc.metadata.complexity_score + doc.metadata.impact_score) :
    (pyIn "abb" (lowerStr query) = true → doc.metadata.organization ≠ "" →
      pyIn "abb" (lowerStr doc.metadata.organization) = true →
      6 ≤ enrichedScore query doc)
    ∧ (pyIn "netradyne" (lowerStr query) = true → doc.metadata.organization ≠ "" →
      pyIn "netradyne" (lowerStr doc.metadata.organization) = true →
      6 ≤ enrichedScore query doc)
    ∧ ((pyIn "iisc" (lowerStr query) = true ∨ pyIn "indian institute" (lowerStr query) = true) →
      doc.metadata.organization ≠ "" →
      pyIn "iisc" (lowerStr doc.metadata.organization) = true →
      6 ≤ enrichedScore query doc)
    ∧ (pyIn "drcl" (lowerStr query) = true → doc.metadata.organization ≠ "" →
      pyIn "drcl" (lowerStr doc.metadata.organization) = true →
      6 ≤ enrichedScore query doc)
    ∧ (pyIn "netradyne" (lowerStr query) = true →
      pyIn "netradyne" (lowerStr doc.content) = true → 6 ≤ enrichedScore query doc)
    ∧ (pyIn "abb" (lowerStr query) = true →
      pyIn "abb" (lowerStr doc.content) = true → 4 ≤ enrichedScore query doc)
    ∧ ((pyIn "iisc" (lowerStr query) = true ∨ pyIn "indian institute" (lowerStr query) = true) →
      (pyIn "iisc" (lowerStr doc.content) = true
        ∨ pyIn "indian institute of science" (lowerStr doc.content) = true) →
      5 ≤ enrichedScore query doc)
    ∧ (pyIn "drcl" (lowerStr query) = true →
      pyIn "drcl" (lowerStr doc.content) = true → 5 ≤ enrichedScore query doc) := by
  have hblend : 0 ≤ blendScore doc := mul_nonneg hb (by norm_num)
  have horgle := orgFieldScore_le_enrichedScore query doc hblend
  have hconle := contentOrgScore_le_enrichedScore query doc hblend
  refine ⟨?_, ?_, ?_, ?_, ?_, ?_, ?_, ?_⟩
  · intro hq hne ho
    refine le_trans ?_ horgle
    unfold orgFieldScore
    rw [if_pos hne]
    have hc1 : (pyIn "abb" (lowerStr query)
        && pyIn "abb" (lowerStr doc.metadata.organization)) = true := by
      rw [hq, ho]
      rfl
    rw [hc1]
    have := nnIteC ((pyIn "netradyne" (lowerStr query)
        && pyIn "netradyne" (lowerStr doc.metadata.organization)) = true)
      (by norm_num : (0:ℚ) ≤ 6)
    have := nnIteC (((pyIn "iisc" (lowerStr query) || pyIn "indian institute" (lowerStr query))
        && pyIn "iisc" (lowerStr doc.metadata.organization)) = true)
      (by norm_num : (0:ℚ) ≤ 6)
    have := nnIteC ((pyIn "drcl" (lowerStr query)
        && pyIn "drcl" (lowerStr doc.metadata.organization)) = true)
      (by norm_num : (0:ℚ) ≤ 6)
    simp only [if_true]
    linarith
  · intro hq hne ho
    refine le_trans ?_ horgle
    unfold orgFieldScore
    rw [if_pos hne]
    have hc1 : (pyIn "netradyne" (lowerStr query)
        && pyIn "netradyne" (lowerStr doc.metadata.organization)) = true := by
      rw [hq, ho]
      rfl
    rw [hc1]
    have := nnIteC ((pyIn "abb" (lowerStr query)
        && pyIn "abb" (lowerStr doc.metadata.organization)) = true)
      (by norm_num : (0:ℚ) ≤ 6)
    have := nnIteC (((pyIn "iisc" (lowerStr query) || pyIn "indian institute" (lowerStr query))
        && pyIn "iisc" (lowerStr doc.metadata.organization)) = true)
      (by norm_num : (0:ℚ) ≤ 6)
    have := nnIteC ((pyIn "drcl" (lowerStr query)
        && pyIn "drcl" (lowerStr doc.metadata.organization)) = true)
      (by norm_num : (0:ℚ) ≤ 6)
    simp only [if_true]
    linarith
  · intro hq hne ho
    refine le_trans ?_ horgle
    unfold orgFieldScore
    rw [if_pos hne]
    have hor : (pyIn "iisc" (lowerStr query) || pyIn "indian institute" (lowerStr query)) = true := by
      rcases hq with h | h <;> simp [h]
    have hc1 : ((pyIn "iisc" (lowerStr query) || pyIn "indian institute" (lowerStr query))
        && pyIn "iisc" (lowerStr doc.metadata.organization)) = true := by
      rw [hor, ho]
      rfl
    rw [hc1]
    have := nnIteC ((pyIn "abb" (lowerStr query)
        && pyIn "abb" (lowerStr doc.metadata.organization)) = true)
      (by norm_num : (0:ℚ) ≤ 6)
    have := nnIteC ((pyIn "netradyne" (lowerStr query)
        && pyIn "netradyne" (lowerStr doc.metadata.organization)) = true)
      (by norm_num : (0:ℚ) ≤ 6)
    have := nnIteC ((pyIn "drcl" (lowerStr query)
        && pyIn "drcl" (lowerStr doc.metadata.organization)) = true)
      (by norm_num : (0:ℚ) ≤ 6)
    simp only [if_true]
    linarith
  · intro hq hne ho
    refine le_trans ?_ horgle
    unfold orgFieldScore
    rw [if_pos hne]
    have hc1 : (pyIn "drcl" (lowerStr query)
        && pyIn "drcl" (lowerStr doc.metadata.organization)) = true := by
      rw [hq, ho]
      rfl
    rw [hc1]
    have := nnIteC ((pyIn "abb" (lowerStr query)
        && pyIn "abb" (lowerStr doc.metadata.organization)) = true)
      (by norm_num : (0:ℚ) ≤ 6)
    have := nnIteC ((pyIn "netradyne" (lowerStr query)
        && pyIn "netradyne" (lowerStr doc.metadata.organization)) = true)
      (by norm_num : (0:ℚ) ≤ 6)
    have := nnIteC (((pyIn "iisc" (lowerStr query) || pyIn "indian institute" (lowerStr query))
        && pyIn "iisc" (lowerStr doc.metadata.organization)) = true)
      (by norm_num : (0:ℚ) ≤ 6)
    simp only [if_true]
    linarith
  · intro hq ho
    refine le_trans ?_ hconle
    unfold contentOrgScore
    have hc1 : (pyIn "netradyne" (lowerStr query)
        && pyIn "netradyne" (lowerStr doc.content)) = true := by
      rw [hq, ho]
      rfl
    rw [hc1]
    have := nnIteC ((pyIn "abb" (lowerStr query)
        && pyIn "abb" (lowerStr doc.content)) = true)
      (by norm_num : (0:ℚ) ≤ 4)
    have := nnIteC (((pyIn "iisc" (lowerStr query) || pyIn "indian institute" (lowerStr query))
        && (pyIn "iisc" (lowerStr doc.content)
          || pyIn "indian institute of science" (lowerStr doc.content))) = true)
      (by norm_num : (0:ℚ) ≤ 5)
    have := nnIteC ((pyIn "drcl" (lowerStr query)
        && pyIn "drcl" (lowerStr doc.content)) = true)
      (by norm_num : (0:ℚ) ≤ 5)
    simp only [if_true]
    linarith
  · intro hq ho
    refine le_trans ?_ hconle
    unfold contentOrgScore
    have hc1 : (pyIn "abb" (lowerStr query) && pyIn "abb" (lowerStr doc.content)) = true := by
      rw [hq, ho]
      rfl
    rw [hc1]
    have := nnIteC ((pyIn "netradyne" (lowerStr query)
        && pyIn "netradyne" (lowerStr doc.content)) = true)
      (by norm_num : (0:ℚ) ≤ 6)
    have := nnIteC (((pyIn "iisc" (lowerStr query) || pyIn "indian institute" (lowerStr query))
        && (pyIn "iisc" (lowerStr doc.content)
          || pyIn "indian institute of science" (lowerStr doc.content))) = true)
      (by norm_num : (0:ℚ) ≤ 5)
    have := nnIteC ((pyIn "drcl" (lowerStr query)
        && pyIn "drcl" (lowerStr doc.content)) = true)
      (by norm_num : (0:ℚ) ≤ 5)
    simp only [if_true]
    linarith
  · intro hq ho
    refine le_trans ?_ hconle
    unfold contentOrgScore
    have hor : (pyIn "iisc" (lowerStr query) || pyIn "indian institute" (lowerStr query)) = true := by
      rcases hq with h | h <;> simp [h]
    have hoc : (pyIn "iisc" (lowerStr doc.content)
        || pyIn "indian institute of science" (lowerStr doc.content)) = true := by
      rcases ho with h | h <;> simp [h]
    have hc1 : ((pyIn "iisc" (lowerStr query) || pyIn "indian institute" (lowerStr query))
        && (pyIn "iisc" (lowerStr doc.content)
          || pyIn "indian institute of science" (lowerStr doc.content))) = true := by
      rw [hor, hoc]
      rfl
    rw [hc1]
    have := nnIteC ((pyIn "netradyne" (lowerStr query)
        && pyIn "netradyne" (lowerStr doc.content)) = true)
      (by norm_num : (0:ℚ) ≤ 6)
    have := nnIteC ((pyIn "abb" (lowerStr query)
        && pyIn "abb" (lowerStr doc.content)) = true)
      (by norm_num : (0:ℚ) ≤ 4)
    have := nnIteC ((pyIn "drcl" (lowerStr query)
        && pyIn "drcl" (lowerStr doc.content)) = true)
      (by norm_num : (0:ℚ) ≤ 5)
    simp only [if_true]
    linarith
  · intro hq ho
    refine le_trans ?_ hconle
    unfold contentOrgScore
    have hc1 : (pyIn "drcl" (lowerStr query) && pyIn "drcl" (lowerStr doc.content)) = true := by
      rw [hq, ho]
      rfl
    rw [hc1]
    have := nnIteC ((pyIn "netradyne" (lowerStr query)
        && pyIn "netradyne" (lowerStr doc.content)) = true)
      (by norm_num : (0:ℚ) ≤ 6)
    have := nnIteC ((pyIn "abb" (lowerStr query)
        && pyIn "abb" (lowerStr doc.content)) = true)
      (by norm_num : (0:ℚ) ≤ 4)
    have := nnIteC (((pyIn "iisc" (lowerStr query) || pyIn "indian institute" (lowerStr query))
        && (pyIn "iisc" (lowerStr doc.content)
          || pyIn "indian institute of science" (lowerStr doc.content))) = true)
      (by norm_num : (0:ℚ) ≤ 5)
    simp only [if_true]
    linarith

theorem C8_witness : 6 ≤ enrichedScore "abb" abbOrgDoc :=
  (C8_entity_bonuses "abb" abbOrgDoc (by with_unfolding_all decide)).1
    (by with_unfolding_all decide) (by with_unfolding_all decide)
    (by with_unfolding_all decide)

/-- C10: on the query "abb netradyne", which names two distinct organizations,
over a corpus where the same document is the best match for both, the coverage
step appends that document once per missing organization with no duplicate
check, so the returned sequence holds the same document twice. -/
theorem C10_duplicate_append :
    requestedOrgs "abb netradyne" = ["abb", "netradyne"]
    ∧ ensure_organization_coverage kbBothOrgs "abb netradyne" [] 3 =
        [bothOrgsDoc.toRes, bothOrgsDoc.toRes]
    ∧ ¬ (ensure_organization_coverage kbBothOrgs "abb netradyne" [] 3).Nodup := by
  with_unfolding_all decide

/-- C2, counterexample: the query "abb netradyne" names Netradyne, a stored
document matches it, and the empty pre-coverage list is shorter than
`n_results = 1`; yet the coverage stage's output (the one appended ABB
document) contains no Netradyne match, because appending the ABB best first
used up the only slot. -/
theorem C2_counterexample :
    "netradyne" ∈ requestedOrgs "abb netradyne"
    ∧ kbAbbNetradyne.get_all_documents.any (docMatchesOrg "netradyne") = true
    ∧ ([] : List ScoredResult).length < 1
    ∧ ∀ r ∈ ensure_organization_coverage kbAbbNetradyne "abb netradyne" [] 1,
        resMatchesOrg "netradyne" r = false := by
  with_unfolding_all decide

/-- C2, amended: the coverage stage returns its input unchanged when no
organization is named, always keeps the input as a prefix (existing order
preserved, appends at the end), guarantees a match for a named organization
that is already present or whose turn in the missing list still finds room
below `n_results` (the original claim's weaker room condition fails when an
earlier missing organization's append fills the list), and the scanned best
candidate per organization maximizes `impact_score + complexity_score`. -/
theorem C2_coverage_guarantee (kb : KnowledgeBase) (query : String)
    (results : List ScoredResult) (n : Nat) (org : String) :
    (requestedOrgs query = [] → ensure_organization_coverage kb query results n = results)
    ∧ (∃ t, ensure_organization_coverage kb query results n = results ++ t)
    ∧ (org ∈ requestedOrgs query →
        (∃ d ∈ kb.get_all_documents, docMatchesOrg org d = true ∧ -1 < covScore d) →
        (results.any (resMatchesOrg org) = true
          ∨ ∃ pre post, missingOrgs query results = pre ++ org :: post
              ∧ results.length + pre.length < n) →
        ∃ r ∈ ensure_organization_coverage kb query results n,
          resMatchesOrg org r = true)
    ∧ (∀ b, (coverageScan kb.get_all_documents org).1 = some b →
        b ∈ kb.get_all_documents ∧ docMatchesOrg org b = true ∧
        ∀ d ∈ kb.get_all_documents, docMatchesOrg org d = true →
          covScore d ≤ covScore b) := by
  refine ⟨?_, ensure_coverage_extends kb query results n,
    ensure_coverage_covers kb query results n org, ?_⟩
  · intro h
    unfold ensure_organization_coverage
    rw [if_pos h]
  · intro b hb
    exact coverageScan_spec hb

theorem C2_witness :
    ∃ r ∈ ensure_organization_coverage kbAbbNetradyne "abb netradyne" [] 3,
      resMatchesOrg "netradyne" r = true :=
  (C2_coverage_guarantee kbAbbNetradyne "abb netradyne" [] 3 "netradyne").2.2.1
    (by with_unfolding_all decide)
    ⟨netradyneContentDoc, by with_unfolding_all decide, by with_unfolding_all decide,
      by with_unfolding_all decide⟩
    (Or.inr ⟨["abb"], [], by with_unfolding_all decide, by norm_num⟩)

/-- C6: every record the enriched-metadata stage emits carries a strictly
positive score with `distance = 1/(score+1)` lying in (0, 1]; between two
emitted records the distances order strictly opposite to the scores; a stored
document whose score is 0 never appears in the output; and the output is
sorted descending by score. -/
theorem C6_scored_result_invariants (kb : KnowledgeBase) (query : String)
    (n : Nat) :
    (∀ r ∈ search_with_enriched_metadata kb query n,
      ∃ s : ℚ, r.score = some s ∧ 0 < s ∧ r.distance = some (1 / (s + 1))
        ∧ 0 < 1 / (s + 1) ∧ 1 / (s + 1) ≤ 1)
    ∧ (∀ r₁ ∈ search_with_enriched_metadata kb query n,
       ∀ r₂ ∈ search_with_enriched_metadata kb query n,
       ∀ s₁ s₂ d₁ d₂ : ℚ, r₁.score = some s₁ → r₂.score = some s₂ →
        r₁.distance = some d₁ → r₂.distance = some d₂ → s₂ < s₁ → d₁ < d₂)
    ∧ (∀ d ∈ kb.get_all_documents, enrichedScore query d = 0 →
        ∀ r ∈ search_with_enriched_metadata kb query n,
          ¬ (r.content = d.content ∧ r.metadata = d.metadata))
    ∧ List.Sorted scoreDescR (search_with_enriched_metadata kb query n) := by
  have h1 : ∀ r ∈ search_with_enriched_metadata kb query n,
      ∃ s : ℚ, r.score = some s ∧ 0 < s ∧ r.distance = some (1 / (s + 1))
        ∧ 0 < 1 / (s + 1) ∧ 1 / (s + 1) ≤ 1 := by
    intro r hr
    obtain ⟨d, _, hpos, rfl⟩ := mem_search_with_enriched_metadata hr
    refine ⟨enrichedScore query d, rfl, hpos, rfl, ?_, ?_⟩
    · exact one_div_pos.mpr (by linarith)
    · rw [div_le_one (by linarith)]
      linarith
  refine ⟨h1, ?_, ?_, search_with_enriched_metadata_sorted kb query n⟩
  · intro r1 hr1 r2 hr2 s1 s2 d1 d2 hs1 hs2 hd1 hd2 hlt
    obtain ⟨s1', hs1', hpos1, hdist1, _, _⟩ := h1 r1 hr1
    obtain ⟨s2', hs2', hpos2, hdist2, _, _⟩ := h1 r2 hr2
    rw [hs1] at hs1'
    rw [hs2] at hs2'
    injection hs1' with e1
    injection hs2' with e2
    rw [hd1] at hdist1
    rw [hd2] at hdist2
    injection hdist1 with ed1
    injection hdist2 with ed2
    rw [ed1, ed2, ← e1, ← e2]
    exact one_div_lt_one_div_of_lt (by linarith) (by linarith)
  · intro d hd hzero r hr hc
    obtain ⟨d', _, hpos, rfl⟩ := mem_search_with_enriched_metadata hr
    obtain ⟨hcc, hmm⟩ := hc
    have : d' = d := by
      cases d'
      cases d
      simp only at hcc hmm
      simp [hcc, hmm]
    rw [this, hzero] at hpos
    exact lt_irrefl 0 hpos

theorem C6_witness :
    ∃ s : ℚ,
      ({ content := "abb", metadata := {}, distance := some (2/11),
         score := some (9/2) } : ScoredResult).score = some s
      ∧ 0 < s
      ∧ ({ content := "abb", metadata := {}, distance := some (2/11),
           score := some (9/2) } : ScoredResult).distance = some (1 / (s + 1))
      ∧ 0 < 1 / (s + 1) ∧ 1 / (s + 1) ≤ 1 :=
  (C6_scored_result_invariants kbAbbNetradyne "abb" 5).1
    { content := "abb", metadata := {}, distance := some (2/11), score := some (9/2) }
    (by with_unfolding_all decide)

/-- C9, counterexample: within the "IISC" filename filter on the query
"current work", a document sharing no literal word with the query but whose
`temporal_context` marks it current gets relevance 3 (not the claimed 0) from
the temporal boost the claim omits, so it is returned with distance 1/4
instead of being excluded. -/
theorem C9_counterexample :
    ((queryWords "current work").filter fun w =>
        pyIn w (lowerStr iiscTemporalDoc.content)) = []
    ∧ docRelevanceScore "IISC" "current work" iiscTemporalDoc = 3
    ∧ search_in_specific_document kbIiscTemporal "IISC" "current work" 5 =
        [{ content := "xyz", metadata := iiscTemporalDoc.metadata,
           distance := some (1/4), score := none }] := by
  with_unfolding_all decide

/-- C9, amended: within a filename-filtered subset, each returned record comes
from a stored matching-filename document with strictly positive
`docRelevanceScore` — the literal query-word count plus the courses-file
boosts and floor plus the temporal-context boosts — and carries
`distance = 1/(relevance+1)`; zero-relevance documents are excluded; the
output is sorted ascending by distance. -/
theorem C9_filtered_relevance (kb : KnowledgeBase) (p q : String) (n : Nat) :
    (∀ r ∈ search_in_specific_document kb p q n,
      ∃ d ∈ kb.get_all_documents,
        pyIn (lowerStr p) (lowerStr d.metadata.filename) = true ∧
        0 < docRelevanceScore p q d ∧
        r.content = d.content ∧ r.metadata = d.metadata ∧
        r.distance = some (1 / ((docRelevanceScore p q d : ℚ) + 1)))
    ∧ (∀ d ∈ kb.get_all_documents,
        pyIn (lowerStr p) (lowerStr d.metadata.filename) = true →
        docRelevanceScore p q d = 0 →
        ∀ r ∈ search_in_specific_document kb p q n,
          ¬ (r.content = d.content ∧ r.metadata = d.metadata))
    ∧ List.Sorted distAscR (search_in_specific_document kb p q n) := by
  refine ⟨?_, ?_, search_in_specific_document_sorted kb p q n⟩
  · intro r hr
    obtain ⟨d, hd, hfn, hpos, rfl⟩ := mem_search_in_specific_document hr
    exact ⟨d, hd, hfn, hpos, rfl, rfl, rfl⟩
  · intro d hd hfn hzero r hr hc
    obtain ⟨d', _, _, hpos, rfl⟩ := mem_search_in_specific_document hr
    obtain ⟨hcc, hmm⟩ := hc
    have : d' = d := by
      cases d'
      cases d
      simp only at hcc hmm
      simp [hcc, hmm]
    rw [this, hzero] at hpos
    exact lt_irrefl 0 hpos

theorem C9_witness :
    ∃ d ∈ kbIiscTemporal.get_all_documents,
      pyIn (lowerStr "IISC") (lowerStr d.metadata.filename) = true ∧
      0 < docRelevanceScore "IISC" "current work" d ∧
      ({ content := "xyz", metadata := iiscTemporalDoc.metadata,
         distance := some (1/4), score := none } : ScoredResult).content = d.content ∧
      ({ content := "xyz", metadata := iiscTemporalDoc.metadata,
         distance := some (1/4), score := none } : ScoredResult).metadata = d.metadata ∧
      ({ content := "xyz", metadata := iiscTemporalDoc.metadata,
         distance := some (1/4), score := none } : ScoredResult).distance =
        some (1 / ((docRelevanceScore "IISC" "current work" d : ℚ) + 1)) :=
  (C9_filtered_relevance kbIiscTemporal "IISC" "current work" 5).1
    { content := "xyz", metadata := iiscTemporalDoc.metadata,
      distance := some (1/4), score := none }
    (by with_unfolding_all decide)

/-- C1, counterexample: Scenario D fails on the code.  Over a corpus of 20
academic documents, the query "courses taken" with caller-requested
`n_results = 3` returns 15 records, because the course override raises
`n_results` itself to 15 before every truncation, including the final one. -/
theorem C1_counterexample :
    kbTwentyAcademic.get_all_documents.length = 20
    ∧ (∀ d ∈ kbTwentyAcademic.get_all_documents, d.metadata.document_type = "academic")
    ∧ (get_relevant_context kbTwentyAcademic "courses taken" 3).length = 15
    ∧ ¬ (get_relevant_context kbTwentyAcademic "courses taken" 3).length ≤ 3 := by
  with_unfolding_all decide

/-- C1, amended: provided the semantic index honors its limit argument, the
orchestrator's output length is at most the effective `n_results` — the
caller's value, except that course-related queries raise it to at least 15 —
and in particular at most the caller's `n_results` for every query that is not
course-related. -/
theorem C1_result_length (kb : KnowledgeBase) (query : String) (n_results : Nat)
    (hsearch : ∀ q k, (KnowledgeBase.search kb q k).length ≤ k) :
    (get_relevant_context kb query n_results).length
      ≤ effective_n_results query n_results
    ∧ (queryIsCourseRelated query = false →
        (get_relevant_context kb query n_results).length ≤ n_results) := by
  have hmain : (get_relevant_context kb query n_results).length
      ≤ effective_n_results query n_results := by
    unfold get_relevant_context
    split
    · refine le_trans (ensure_coverage_length kb query _ _) ?_
      exact max_le (search_with_enriched_metadata_length kb query _) le_rfl
    · split
      · refine le_trans (ensure_coverage_length kb query _ _) ?_
        refine max_le ?_ le_rfl
        refine intelligent_document_routing_length kb query _ ?_
        intro hc
        unfold effective_n_results
        rw [if_pos hc]
        exact le_max_right _ _
      · refine le_trans (ensure_coverage_length kb query _ _) ?_
        exact max_le (hsearch query _) le_rfl
  refine ⟨hmain, fun hf => ?_⟩
  have he : effective_n_results query n_results = n_results := by
    unfold effective_n_results
    rw [hf]
    simp
  rwa [he] at hmain

theorem C1_witness :
    (∀ q k, (KnowledgeBase.search kbHello q k).length ≤ k)
    ∧ (get_relevant_context kbHello "research zzz" 5).length
        ≤ effective_n_results "research zzz" 5
    ∧ (queryIsCourseRelated "research zzz" = false →
        (get_relevant_context kbHello "research zzz" 5).length ≤ 5) := by
  have hs : ∀ q k, (KnowledgeBase.search kbHello q k).length ≤ k := by
    intro q k
    show (((some []).getD [] : List ScoredResult)).length ≤ k
    simp
  exact ⟨hs, (C1_result_length kbHello "research zzz" 5 hs).1,
    (C1_result_length kbHello "research zzz" 5 hs).2⟩

/-- C4: the orchestrator is a total function of its inputs.  When every
backend call raises — both the enumeration scroll and the vector search — the
result is the empty list, and when every stage produces zero matches (the
enriched scorer, the semantic search, the routing, and the coverage scan over
the named organizations), the result is the empty list rather than an error. -/
theorem C4_never_raises_empty_safe (kb : KnowledgeBase) (query : String)
    (n : Nat) :
    (kb.scroll = none → (∀ q k, kb.vector_search q k = none) →
      get_relevant_context kb query n = [])
    ∧ (search_with_enriched_metadata kb query (effective_n_results query n) = [] →
      KnowledgeBase.search kb query (effective_n_results query n) = [] →
      intelligent_document_routing kb query (effective_n_results query n) = [] →
      (∀ o ∈ requestedOrgs query, ∀ d ∈ kb.get_all_documents,
        docMatchesOrg o d = false) →
      get_relevant_context kb query n = []) := by
  have hcommon : ∀ (henr : search_with_enriched_metadata kb query
        (effective_n_results query n) = [])
      (hs : KnowledgeBase.search kb query (effective_n_results query n) = [])
      (hrout : intelligent_document_routing kb query
        (effective_n_results query n) = [])
      (hcov : ensure_organization_coverage kb query []
        (effective_n_results query n) = []),
      get_relevant_context kb query n = [] := by
    intro henr hs hrout hcov
    unfold get_relevant_context
    rw [henr, hs, if_neg (by simp), if_pos (Or.inl rfl), hrout, hcov]
  constructor
  · intro hscroll hvs
    have hall : kb.get_all_documents = [] := by
      unfold KnowledgeBase.get_all_documents
      rw [hscroll]
      rfl
    have hs : ∀ k, KnowledgeBase.search kb query k = [] := fun k => by
      unfold KnowledgeBase.search
      rw [hvs query k]
      rfl
    refine hcommon
      (search_with_enriched_metadata_empty kb query _ hall)
      (hs _)
      (intelligent_document_routing_empty kb query _ hall hs)
      (ensure_coverage_nil kb query _ ?_)
    intro o _ d hd
    rw [hall] at hd
    simp at hd
  · intro henr hs hrout hnoorg
    exact hcommon henr hs hrout
      (ensure_coverage_nil kb query _ (fun o ho => hnoorg o ho))

theorem C4_witness :
    get_relevant_context failedKB "abb research" 5 = []
    ∧ get_relevant_context kbHello "research zzz" 4 = [] :=
  ⟨(C4_never_raises_empty_safe failedKB "abb research" 5).1 rfl (fun _ _ => rfl),
   (C4_never_raises_empty_safe kbHello "research zzz" 4).2
     (by with_unfolding_all decide) (by with_unfolding_all decide)
     (by with_unfolding_all decide) (by with_unfolding_all decide)⟩

/-- C5: a raised vector-index call inside the semantic stage is caught at that
stage's boundary (the knowledge base's own search wrapper returns the empty
list), and the orchestrator then proceeds to the routing stage and to the
coverage stage instead of returning at once. -/
theorem C5_stage_failure_proceeds (kb : KnowledgeBase) (query : String)
    (n : Nat)
    (hthrow : kb.vector_search query (effective_n_results query n) = none)
    (henr : search_with_enriched_metadata kb query (effective_n_results query n) = []) :
    KnowledgeBase.search kb query (effective_n_results query n) = []
    ∧ get_relevant_context kb query n =
        ensure_organization_coverage kb query
          (intelligent_document_routing kb query (effective_n_results query n))
          (effective_n_results query n) := by
  have hs : KnowledgeBase.search kb query (effective_n_results query n) = [] := by
    unfold KnowledgeBase.search
    rw [hthrow]
    rfl
  refine ⟨hs, ?_⟩
  unfold get_relevant_context
  rw [henr, hs]
  simp

theorem C5_witness :
    KnowledgeBase.search kbHelloDown "research zzz"
        (effective_n_results "research zzz" 5) = []
    ∧ get_relevant_context kbHelloDown "research zzz" 5 =
        ensure_organization_coverage kbHelloDown "research zzz"
          (intelligent_document_routing kbHelloDown "research zzz"
            (effective_n_results "research zzz" 5))
          (effective_n_results "research zzz" 5) :=
  C5_stage_failure_proceeds kbHelloDown "research zzz" 5 rfl
    (by with_unfolding_all decide)

end Chatbot
